import Mathlib

set_option autoImplicit false

/-!
Verification of the infographic service module (src/services/geminiService.ts).

We shallowly embed the pure logic of the module: JavaScript strings are
modelled as lists of characters, the response parsing of
researchTopicForPrompt is translated regex-by-regex into first-occurrence
substring searches (the regexes involved are of the shape
HEADER then whitespace then a lazy group stopped by a lookahead or the end of
input, which on any input reduces to exactly such a search, as argued in the
doc comments below), and each outgoing provider request is captured as a
record holding the model name, the content parts and the optional sampling
configuration. Floating point sampling values are represented as rationals
(0.4 as 2/5, 0.95 as 19/20); only equality between identical literals is
ever stated about them.
-/

namespace GeminiService

/-- A JavaScript string, modelled as its list of characters. -/
abbrev Str := List Char

/-- Whitespace as matched by the regex class backslash-s and by trim
(restricted to the ASCII range, which covers every character the module
itself introduces). -/
def isJsWhitespace (c : Char) : Bool :=
  c = ' ' || c = '\t' || c = '\n' || c = '\r' || c = '\x0b' || c = '\x0c'

/-- Model of String.prototype.trim: drop whitespace from both ends. -/
def trimStr (s : Str) : Str :=
  ((s.dropWhile isJsWhitespace).reverse.dropWhile isJsWhitespace).reverse

/-- ASCII lowercasing of one character, as toLowerCase acts on the ASCII
range. -/
def lowerChar (c : Char) : Char :=
  if 'A' ≤ c && c ≤ 'Z' then Char.ofNat (c.toNat + 32) else c

/-- Model of String.prototype.toLowerCase on ASCII strings. -/
def lowerStr (s : Str) : Str := s.map lowerChar

/-- Does the pattern occur in s starting at index i. -/
def matchAt (pat s : Str) (i : Nat) : Bool := pat.isPrefixOf (s.drop i)

/-- Model of String.prototype.includes: the pattern occurs somewhere in s. -/
def containsSub (s pat : Str) : Bool :=
  (List.range (s.length + 1)).any (matchAt pat s)

/-- Index of the first occurrence of the pattern in s, if any. -/
def findSub (s pat : Str) : Option Nat :=
  (List.range (s.length + 1)).find? (matchAt pat s)

/-- Case-insensitive first occurrence: the subject is lowercased and the
pattern is expected to be given in lowercase already (as the section
headers below are). -/
def findSubCI (s pat : Str) : Option Nat := findSub (lowerStr s) pat

/-- Model of s.toLowerCase().includes(pat) for a lowercase pattern. -/
def containsCI (s pat : Str) : Bool := containsSub (lowerStr s) pat

/-- Number of occurrences of the pattern in s (indices at which it
matches). -/
def countOccur (pat s : Str) : Nat :=
  (List.range (s.length + 1)).countP (matchAt pat s)

/-! ## Prompt-builder instruction tables (getLevelInstruction, getStyleInstruction) -/

/-- The level switch of getLevelInstruction; unrecognized levels fall back
to the general-public instruction, as the default branch does. -/
def getLevelInstruction (level : Str) : Str :=
  if level = "Elementary".data then
    "Target Audience: Elementary School (Ages 6-10). Design Requirements: Extra large, bold text (minimum 24pt equivalent). Bright primary colors. Simple geometric icons and illustrations. Maximum 3-5 key points. Wide spacing between elements. Playful but clear layout. Minimal technical jargon.".data
  else if level = "High School".data then
    "Target Audience: High School (Ages 14-18). Design Requirements: Clear, readable text (18-22pt equivalent). Balanced color scheme. Mix of diagrams, charts, and illustrations. Include 5-8 key concepts. Standard infographic layout with sections. Some technical terms with visual explanations.".data
  else if level = "College".data then
    "Target Audience: University/College (Ages 18-25). Design Requirements: Detailed text (14-18pt equivalent). Professional color palette. Complex diagrams, data visualizations, and cross-sections. Include 8-12 detailed points. Dense but organized layout. Technical terminology with precise labels.".data
  else if level = "Expert".data then
    "Target Audience: Industry Expert/Professional. Design Requirements: Technical precision text (12-16pt equivalent). Sophisticated color scheme or monochrome. Highly detailed schematics, blueprints, and technical diagrams. Include 12+ comprehensive points. Dense information with hierarchical organization. Advanced technical terminology and precise annotations.".data
  else
    "Target Audience: General Public. Design Requirements: Clear, accessible design with readable text and balanced complexity.".data

/-- The style switch of getStyleInstruction; unrecognized styles fall back
to the modern-scientific-infographic instruction, as the default branch
does. -/
def getStyleInstruction (style : Str) : Str :=
  if style = "Minimalist".data then
    "Aesthetic: Bauhaus Minimalist. Flat vector art with crisp edges. Limited color palette (2-3 bold colors). Heavy use of negative white space. Simple geometric shapes (circles, squares, lines). Sans-serif typography. Grid-based layout. High contrast. Ultra-clean composition.".data
  else if style = "Realistic".data then
    "Aesthetic: Photorealistic Composite. Professional photography style. Natural lighting and shadows. 8K resolution detail. Highly detailed textures and materials. Depth of field. Looks like a high-end magazine photo spread with real objects and environments.".data
  else if style = "Cartoon".data then
    "Aesthetic: Modern Educational Comic. Vibrant saturated colors. Bold black outlines (2-3px). Cel-shaded flat colors with simple highlights. Expressive character-like elements. Dynamic compositions. Speech bubbles or callouts. Friendly and engaging visual narrative style.".data
  else if style = "Vintage".data then
    "Aesthetic: 19th Century Scientific Lithograph. Hand-engraved appearance. Sepia, cream, and brown tones. Aged paper texture background. Fine cross-hatching and stippling. Ornate borders and decorative elements. Classical typography. Museum-quality historical scientific illustration.".data
  else if style = "Futuristic".data then
    "Aesthetic: Cyberpunk HUD Interface. Dark background (black or deep blue). Glowing neon lines (cyan, blue, magenta). Holographic translucent panels. Digital grid overlays. 3D wireframe elements. Geometric tech patterns. Sci-fi dashboard aesthetic with digital readouts and data streams.".data
  else if style = "3D Render".data then
    "Aesthetic: 3D Isometric Render. Clean isometric perspective. Smooth gradients and soft shadows. Glossy plastic or claymorphism materials. Studio lighting with rim lights. Soft ambient occlusion. Looks like a high-quality physical model or toy. Rounded corners and friendly shapes.".data
  else if style = "Sketch".data then
    "Aesthetic: Technical Blueprint/Da Vinci Notebook. Pen and ink style on cream parchment. Hand-drawn appearance with consistent line weight. Handwritten-style annotations and labels. Construction lines visible. Cross-sections and technical details. Looks like an architect\x27s or inventor\x27s working sketch.".data
  else
    "Aesthetic: Modern Scientific Infographic. Clean digital illustration. Professional color palette. Clear hierarchy. Mix of icons, diagrams, and data visualizations. Contemporary design trends. Publication-quality. Balanced composition with proper spacing.".data

/-! ## Response parsing (researchTopicForPrompt, lines 94-138) -/

/-- The FACTS section header, lowercased for case-insensitive search. -/
def factsHeader : Str := "facts:".data

/-- The IMAGE_PROMPT section header, lowercased for case-insensitive
search. -/
def promptHeader : Str := "image_prompt:".data

/-- Model of the regex match FACTS: backslash-s-star, lazy group, lookahead
IMAGE_PROMPT: or end, with the i flag, followed by trim of the captured
group.  Since the part after the header always matches (the lookahead
succeeds at end of input at the latest), the leftmost regex match starts at
the first case-insensitive occurrence of the FACTS: header.  The greedy
whitespace run after the header never contains the start of an
IMAGE_PROMPT: occurrence (that header starts with a non-whitespace
character), and trimming the captured group erases the difference between
skipping that run and not skipping it, so the trimmed group is exactly the
trimmed text between the end of the FACTS: header and the first following
case-insensitive occurrence of IMAGE_PROMPT: (or the end of input). -/
def factsSectionRaw (text : Str) : Option Str :=
  match findSubCI text factsHeader with
  | none => none
  | some i =>
    let rest := text.drop (i + factsHeader.length)
    let body :=
      match findSubCI rest promptHeader with
      | some j => rest.take j
      | none => rest
    some (trimStr body)

/-- The per-line cleanup f.replace of the leading dash regex followed by
trim: a leading dash and the whitespace run after it are removed, then the
line is trimmed. -/
def cleanFactLine (f : Str) : Str :=
  match f with
  | '-' :: rest => trimStr (rest.dropWhile isJsWhitespace)
  | _ => trimStr f

/-- The facts pipeline: split the raw section on newlines, clean each
line, drop empties, keep at most the first 5. -/
def parseFacts (factsRaw : Str) : List Str :=
  (((factsRaw.splitOn '\n').map cleanFactLine).filter (fun f => !f.isEmpty)).take 5

/-- Model of the regex match IMAGE_PROMPT: backslash-s-star, lazy group to
the end of input, with the i flag, followed by trim: the trimmed text after
the first case-insensitive occurrence of the IMAGE_PROMPT: header. -/
def extractedImagePrompt (text : Str) : Option Str :=
  match findSubCI text promptHeader with
  | none => none
  | some i => some (trimStr (text.drop (i + promptHeader.length)))

/-- The fallback image prompt synthesized when no IMAGE_PROMPT: section is
found. -/
def fallbackImagePrompt (topic level style : Str) : Str :=
  "Create a detailed 16:9 widescreen format infographic about ".data ++ topic
    ++ ". ".data ++ getLevelInstruction level ++ " ".data ++ getStyleInstruction style

/-- The extracted image prompt, or the fallback when the section is
missing. -/
def basePrompt (topic level style text : Str) : Str :=
  (extractedImagePrompt text).getD (fallbackImagePrompt topic level style)

/-- The aspect-ratio token searched for case-insensitively. -/
def token169 : Str := "16:9".data

/-- The widescreen token searched for case-insensitively. -/
def tokenWidescreen : Str := "widescreen".data

/-- The sentence prepended when neither aspect token occurs in the
prompt. -/
def aspectMandate : Str := "Create a 16:9 widescreen format infographic. ".data

/-- The quality-enhancement text appended unconditionally to every image
prompt (including the space the += concatenation inserts before it). -/
def qualitySuffix : Str :=
  " High resolution, professional quality, crisp and clear details, well-balanced composition, maximum visual clarity.".data

/-- The aspect-ratio guard: prepend the 16:9 mandate unless the prompt
already mentions 16:9 or widescreen (case-insensitively). -/
def ensureAspect (p : Str) : Str :=
  if !containsCI p token169 && !containsCI p tokenWidescreen then aspectMandate ++ p else p

/-- The image prompt finally returned: base prompt, aspect-ratio guard,
then the quality suffix. -/
def finalImagePrompt (topic level style text : Str) : Str :=
  ensureAspect (basePrompt topic level style text) ++ qualitySuffix

/-! ## Grounding-chunk extraction and URL deduplication -/

/-- A web reference inside a grounding chunk. -/
structure WebSource where
  uri : Str
  title : Str
deriving DecidableEq

/-- A grounding chunk, optionally carrying a web reference. -/
structure GroundingChunk where
  web : Option WebSource
deriving DecidableEq

/-- One citation, as returned to the caller. -/
structure SearchResultItem where
  title : Str
  url : Str
deriving DecidableEq

/-- The forEach push loop: chunks with both a non-empty (truthy) uri and a
non-empty (truthy) title become citation items, in chunk order. -/
def chunkItems (chunks : List GroundingChunk) : List SearchResultItem :=
  chunks.filterMap (fun c =>
    match c.web with
    | some w => if !w.uri.isEmpty && !w.title.isEmpty then some ⟨w.title, w.uri⟩ else none
    | none => none)

/-- Model of Map.prototype.set on the insertion-ordered entry list of a
JavaScript Map: an existing key keeps its position and has its value
overwritten; a new key is appended at the end. -/
def mapSet (entries : List (Str × SearchResultItem)) (k : Str) (v : SearchResultItem) :
    List (Str × SearchResultItem) :=
  match entries with
  | [] => [(k, v)]
  | (k0, v0) :: rest => if k0 = k then (k, v) :: rest else (k0, v0) :: mapSet rest k v

/-- Model of Array.from(new Map(items.map(item to pair)).values()): insert
every (url, item) pair in order into a Map and read the values back in key
insertion order. -/
def dedupByUrl (items : List SearchResultItem) : List SearchResultItem :=
  (items.foldl (fun m it => mapSet m it.url it) []).map Prod.snd

/-- The research-stage result returned to the caller. -/
structure ResearchResult where
  imagePrompt : Str
  facts : List Str
  searchResults : List SearchResultItem
deriving DecidableEq

/-- The pure content of researchTopicForPrompt after the provider call:
given the response text and the optional grounding chunks, parse the facts,
post-process the image prompt and deduplicate the citations.  The prompt
sent to the provider and the transport are outside the embedding; the
language parameter only appears inside that prompt and is therefore not a
parameter here. -/
def researchTopicForPrompt (topic level style : Str) (text : Str)
    (chunks : Option (List GroundingChunk)) : ResearchResult :=
  { imagePrompt := finalImagePrompt topic level style text
  , facts := parseFacts ((factsSectionRaw text).getD [])
  , searchResults := dedupByUrl (chunkItems (chunks.getD [])) }

/-! ## Image operations (generate / verify / fix / edit) -/

/-- Inline binary data inside a content part. -/
structure InlineData where
  mimeType : Str
  data : Str
deriving DecidableEq

/-- One content part of a request or response: optional text, optional
inline data. -/
structure ContentPart where
  text : Option Str
  inlineData : Option InlineData
deriving DecidableEq

/-- The sampling configuration sent with a request. -/
structure SamplingConfig where
  temperature : Rat
  topK : Nat
  topP : Rat
deriving DecidableEq

/-- A generateContent request as the three image operations build it. -/
structure GenRequest where
  model : Str
  parts : List ContentPart
  config : Option SamplingConfig
deriving DecidableEq

/-- The image model identifier (IMAGE_MODEL and EDIT_MODEL are the same
string). -/
def imageModel : Str := "gemini-2.5-flash-image".data

/-- The sampling values temperature 0.4, topK 32, topP 0.95 as written in
generateInfographicImage and editInfographicImage. -/
def fixedSampling : SamplingConfig := ⟨(4 : Rat) / 10, 32, (95 : Rat) / 100⟩

/-- The critical-requirements block appended to the prompt by
generateInfographicImage. -/
def criticalRequirements : Str :=
  "\n\nCRITICAL REQUIREMENTS:\n- Format: 16:9 aspect ratio (widescreen/landscape orientation)\n- Resolution: High-definition, print-quality\n- Text: All text must be large, legible, and perfectly readable\n- Layout: Professional infographic design with clear visual hierarchy\n- Graphics: Sharp, detailed, high-contrast elements\n- Background: Clean and complementary to the content\n- Overall: Publication-ready quality suitable for educational or professional use".data

/-- The request generateInfographicImage sends: a single text part holding
the enhanced prompt, with the fixed sampling configuration. -/
def generateImageRequest (prompt : Str) : GenRequest :=
  ⟨imageModel, [⟨some (prompt ++ criticalRequirements), none⟩], some fixedSampling⟩

/-- The data-URI MIME headers stripped from an incoming image, in the
order the regex alternation png, jpeg, jpg lists them. -/
def pngDataHeader : Str := "data:image/png;base64,".data

/-- The jpeg variant of the stripped data-URI header. -/
def jpegDataHeader : Str := "data:image/jpeg;base64,".data

/-- The jpg variant of the stripped data-URI header. -/
def jpgDataHeader : Str := "data:image/jpg;base64,".data

/-- Model of the anchored replace of the data-URI header regex with the
empty string: if the string starts with one of the three headers, exactly
that header is removed; otherwise the string is unchanged.  The three
alternatives are mutually exclusive at the first position where they
differ, so trying them in order is faithful to the alternation. -/
def stripDataHeader (s : Str) : Str :=
  if pngDataHeader.isPrefixOf s then s.drop pngDataHeader.length
  else if jpegDataHeader.isPrefixOf s then s.drop jpegDataHeader.length
  else if jpgDataHeader.isPrefixOf s then s.drop jpgDataHeader.length
  else s

/-- The correction directive fixInfographicImage composes around the
caller's instruction (whitespace exactly as in the template literal). -/
def fixDirective (correctionPrompt : Str) : Str :=
  "\n    Edit this image. \n    Goal: Simplify and Fix.\n    Instruction: ".data
    ++ correctionPrompt
    ++ ".\n    Ensure the design is clean and any text is large and legible.\n  ".data

/-- The request fixInfographicImage sends: the stripped image bytes
declared as image/jpeg, then the directive text, with no sampling
configuration (the call passes no config). -/
def fixImageRequest (currentImageBase64 correctionPrompt : Str) : GenRequest :=
  ⟨imageModel,
    [⟨none, some ⟨"image/jpeg".data, stripDataHeader currentImageBase64⟩⟩,
     ⟨some (fixDirective correctionPrompt), none⟩],
    none⟩

/-- The quality-preservation block editInfographicImage appends to the
caller's instruction. -/
def maintainQualityBlock : Str :=
  "\n\nMAINTAIN QUALITY STANDARDS:\n- Keep 16:9 aspect ratio\n- Maintain high resolution and clarity\n- Ensure all text remains large and readable\n- Keep professional infographic quality\n- Preserve visual hierarchy and composition balance".data

/-- The request editInfographicImage sends: the stripped image bytes
declared as image/jpeg, then the enhanced instruction, with the fixed
sampling configuration. -/
def editImageRequest (currentImageBase64 editInstruction : Str) : GenRequest :=
  ⟨imageModel,
    [⟨none, some ⟨"image/jpeg".data, stripDataHeader currentImageBase64⟩⟩,
     ⟨some (editInstruction ++ maintainQualityBlock), none⟩],
    some fixedSampling⟩

/-- The truthiness test of the response loop: the part has inlineData and
its data string is non-empty. -/
def hasInlineImage (p : ContentPart) : Bool :=
  match p.inlineData with
  | some d => !d.data.isEmpty
  | none => false

/-- The scan of the response parts: data of the first part whose inline
data is present and non-empty. -/
def firstInlineImage : List ContentPart → Option Str
  | [] => none
  | p :: rest =>
    match p.inlineData with
    | some d => if !d.data.isEmpty then some d.data else firstInlineImage rest
    | none => firstInlineImage rest

/-- Re-encoding of the returned payload as a PNG data URI. -/
def pngDataUri (payload : Str) : Str := pngDataHeader ++ payload

/-- Outcome of one image operation on a provider response: the data URI,
or the operation's missing-output error message. -/
def imageResult (errMsg : Str) (parts : List ContentPart) : Except Str Str :=
  match firstInlineImage parts with
  | some d => .ok (pngDataUri d)
  | none => .error errMsg

/-- Response handling of generateInfographicImage (lines 165-171). -/
def generateImageResult (parts : List ContentPart) : Except Str Str :=
  imageResult "Failed to generate image".data parts

/-- Response handling of fixInfographicImage (lines 209-215). -/
def fixImageResult (parts : List ContentPart) : Except Str Str :=
  imageResult "Failed to fix image".data parts

/-- Response handling of editInfographicImage (lines 245-251). -/
def editImageResult (parts : List ContentPart) : Except Str Str :=
  imageResult "Failed to edit image".data parts

/-- Result record of verifyInfographicAccuracy. -/
structure VerifyResult where
  isAccurate : Bool
  critique : Str
deriving DecidableEq

/-- verifyInfographicAccuracy: the verification bypass, returning a fixed
successful result whatever the arguments are. -/
def verifyInfographicAccuracy (imageBase64 topic level style language : Str) : VerifyResult :=
  ⟨true, "Verification bypassed.".data⟩

/-- In a request, the data strings of the inline-data parts, in order. -/
def requestInlineData (r : GenRequest) : List Str :=
  r.parts.filterMap (fun p => p.inlineData.map (fun d => d.data))

/-- In a request, the MIME types of the inline-data parts, in order. -/
def requestInlineMimes (r : GenRequest) : List Str :=
  r.parts.filterMap (fun p => p.inlineData.map (fun d => d.mimeType))

/-! ## Specification-side definitions used to state the amended claims -/

/-- Placeholder item used only as the default of an Option read that is
never taken on the paths we prove about. -/
def defaultItem : SearchResultItem := ⟨[], []⟩

instance : Inhabited SearchResultItem := ⟨defaultItem⟩

/-- The last item of the list carrying the given url (default item when no
item does). -/
def lastItemForUrl (u : Str) (items : List SearchResultItem) : SearchResultItem :=
  ((items.filter (fun it => it.url = u)).getLast?).getD defaultItem

/-- Order-preserving collapse by url, stated directly as the amended claim
reads: one entry per unique url, entries in order of each url's first
occurrence, and the entry kept for a url is the item of that url's last
occurrence. -/
def dedupFirstKeyLastValue : List SearchResultItem → List SearchResultItem
  | [] => []
  | it :: rest =>
    lastItemForUrl it.url (it :: rest)
      :: dedupFirstKeyLastValue (rest.filter (fun x => x.url ≠ it.url))
termination_by l => l.length
decreasing_by
  simp only [List.length_cons]
  exact Nat.lt_succ_of_le (List.length_filter_le _ _)

/-- No nonempty proper suffix of the pattern is also one of its prefixes.
Under this condition an occurrence of the pattern cannot straddle the
boundary when the pattern is appended to another string. -/
def noOverlap (pat : Str) : Bool :=
  (List.range pat.length).all fun k => decide (k = 0) || !(pat.drop k).isPrefixOf pat

/-! ## Theorems -/

/-- Claim C10 (confirmed): verifyInfographicAccuracy returns the same
fixed successful result, with isAccurate true, for every combination of
arguments, evaluating none of them. -/
theorem verify_stub_spec :
    ∀ (img topic level style language img2 topic2 level2 style2 language2 : Str),
      verifyInfographicAccuracy img topic level style language
          = ⟨true, "Verification bypassed.".data⟩
      ∧ (verifyInfographicAccuracy img topic level style language).isAccurate = true
      ∧ verifyInfographicAccuracy img topic level style language
          = verifyInfographicAccuracy img2 topic2 level2 style2 language2 := by
  intro img topic level style language img2 topic2 level2 style2 language2
  exact ⟨rfl, rfl, rfl⟩

/-- Claim C9 (confirmed): fixInfographicImage and editInfographicImage
both attach the (stripped) image bytes labeled with MIME type image/jpeg,
whatever MIME type the incoming data URI declared; in particular an image
supplied with a PNG data-URI header is re-submitted declared as
image/jpeg. -/
theorem jpeg_mime_spec :
    ∀ (img corr instr : Str),
      requestInlineMimes (fixImageRequest img corr) = ["image/jpeg".data]
      ∧ requestInlineMimes (editImageRequest img instr) = ["image/jpeg".data]
      ∧ requestInlineMimes (fixImageRequest (pngDataHeader ++ img) corr)
          = ["image/jpeg".data]
      ∧ requestInlineMimes (editImageRequest (pngDataHeader ++ img) instr)
          = ["image/jpeg".data] := by
  intro img corr instr
  exact ⟨rfl, rfl, rfl, rfl⟩

/-- Claim C2 (corrected), counterexample: there is no single sampling
configuration carried by all three image requests; fixInfographicImage
sends its request with no sampling configuration at all. -/
theorem sampling_config_counterexample :
    ¬ ∃ c : SamplingConfig,
        (generateImageRequest "p".data).config = some c
        ∧ (fixImageRequest "img".data "c".data).config = some c
        ∧ (editImageRequest "img".data "e".data).config = some c := by
  rintro ⟨c, -, hfix, -⟩
  simp [fixImageRequest] at hfix

/-- Claim C2 (amended): generateInfographicImage and editInfographicImage
send the same fixed sampling parameters (temperature 0.4, topK 32, topP
0.95) in their request configurations, while fixInfographicImage sends its
request without any sampling configuration. -/
theorem sampling_config_spec :
    ∀ (prompt img corr instr : Str),
      (generateImageRequest prompt).config = some fixedSampling
      ∧ (editImageRequest img instr).config = some fixedSampling
      ∧ (fixImageRequest img corr).config = none := by
  intro prompt img corr instr
  exact ⟨rfl, rfl, rfl⟩

/-! ### Deduplication: Map-fold characterization -/

/-- Reading getLast? with a default through a cons. -/
theorem getLastD_cons (a d : SearchResultItem) (l : List SearchResultItem) :
    ((a :: l).getLast?).getD d = (l.getLast?).getD a := by
  induction l generalizing a d with
  | nil => simp
  | cons b t ih =>
    rw [List.getLast?_cons_cons]
    exact (ih b d).trans (ih b a).symm

/-- The last item with a given url has that url (given the default also
has it). -/
theorem getLastD_filter_url (u : Str) (d : SearchResultItem) (l : List SearchResultItem)
    (hd : d.url = u) :
    (((l.filter (fun x => x.url = u)).getLast?).getD d).url = u := by
  cases hl : (l.filter (fun x => x.url = u)).getLast? with
  | none =>
    rw [Option.getD_none]
    exact hd
  | some y =>
    rw [Option.getD_some]
    have hy : y ∈ l.filter (fun x => x.url = u) :=
      List.mem_of_mem_getLast? (Option.mem_def.mpr hl)
    rw [List.mem_filter] at hy
    exact of_decide_eq_true hy.2

/-- Setting an absent key appends the new entry. -/
theorem mapSet_not_mem (m : List (Str × SearchResultItem)) (k : Str) (v : SearchResultItem)
    (h : k ∉ m.map Prod.fst) : mapSet m k v = m ++ [(k, v)] := by
  induction m with
  | nil => rfl
  | cons p rest ih =>
    obtain ⟨k0, v0⟩ := p
    simp only [List.map_cons, List.mem_cons, not_or] at h
    simp only [mapSet]
    rw [if_neg (fun he : k0 = k => h.1 he.symm), ih h.2]
    rfl

/-- Setting a present key, under key uniqueness, rewrites that entry in
place. -/
theorem mapSet_mem (m : List (Str × SearchResultItem)) (k : Str) (v : SearchResultItem)
    (hnd : (m.map Prod.fst).Nodup) (h : k ∈ m.map Prod.fst) :
    mapSet m k v = m.map (fun p => if p.1 = k then (k, v) else p) := by
  induction m with
  | nil => simp at h
  | cons p rest ih =>
    obtain ⟨k0, v0⟩ := p
    simp only [List.map_cons, List.nodup_cons] at hnd
    simp only [List.map_cons, List.mem_cons] at h
    by_cases hk : k0 = k
    · subst hk
      have htail : rest.map (fun p => if p.1 = k0 then (k0, v) else p) = rest := by
        have : ∀ p ∈ rest, (if p.1 = k0 then (k0, v) else p) = p := by
          intro p hp
          rw [if_neg (fun hpk : p.1 = k0 => hnd.1 (hpk ▸ List.mem_map_of_mem Prod.fst hp))]
        rw [List.map_congr_left this, List.map_id']
      simp [mapSet, htail]
    · have hmem : k ∈ rest.map Prod.fst := by
        rcases h with h1 | h2
        · exact absurd h1.symm hk
        · exact h2
      simp only [mapSet, if_neg hk, List.map_cons, if_neg (fun hh : k0 = k => hk hh)]
      rw [ih hnd.2 hmem]

/-- Folding Map.set over the item list: entries whose key is already
present keep their position and receive the value of the last matching
item; new keys are appended in first-occurrence order, likewise valued by
their last occurrence. -/
theorem foldl_mapSet_spec (items : List SearchResultItem)
    (acc : List (Str × SearchResultItem)) (hnd : (acc.map Prod.fst).Nodup) :
    items.foldl (fun m it => mapSet m it.url it) acc =
      acc.map (fun p =>
          (p.1, ((items.filter (fun it => it.url = p.1)).getLast?).getD p.2))
        ++ (dedupFirstKeyLastValue
              (items.filter (fun it => it.url ∉ acc.map Prod.fst))).map
            (fun it => (it.url, it)) := by
  induction items generalizing acc with
  | nil =>
    simp only [List.foldl_nil, List.filter_nil]
    rw [dedupFirstKeyLastValue]
    simp only [List.map_nil, List.append_nil, List.getLast?_nil, Option.getD_none]
    exact (List.map_id' acc).symm
  | cons it rest ih =>
    rw [List.foldl_cons]
    by_cases hmem : it.url ∈ acc.map Prod.fst
    · rw [mapSet_mem acc it.url it hnd hmem]
      have hkeys : (acc.map (fun p => if p.1 = it.url then (it.url, it) else p)).map Prod.fst
          = acc.map Prod.fst := by
        rw [List.map_map]
        apply List.map_congr_left
        intro p hp
        by_cases hp1 : p.1 = it.url
        · simp [hp1]
        · simp [hp1]
      rw [ih _ (by rw [hkeys]; exact hnd), hkeys,
        List.filter_cons_of_neg (by simpa using hmem)]
      congr 1
      rw [List.map_map]
      apply List.map_congr_left
      intro p hp
      by_cases hp1 : p.1 = it.url
      · simp only [Function.comp_apply, if_pos hp1]
        rw [List.filter_cons_of_pos (by simp [hp1]), getLastD_cons, hp1]
      · simp only [Function.comp_apply, if_neg hp1]
        rw [List.filter_cons_of_neg
          (by simp only [decide_eq_true_eq]; exact fun h => hp1 h.symm)]
    · rw [mapSet_not_mem acc it.url it hmem]
      have hnd2 : ((acc ++ [(it.url, it)]).map Prod.fst).Nodup := by
        rw [List.map_append]
        simp [List.nodup_append, hnd, hmem]
      rw [ih _ hnd2]
      simp only [List.map_append, List.map_cons, List.map_nil]
      rw [List.filter_cons_of_pos (by simpa using hmem), dedupFirstKeyLastValue]
      have hhead :
          lastItemForUrl it.url (it :: rest.filter (fun x => x.url ∉ acc.map Prod.fst))
            = ((rest.filter (fun x => x.url = it.url)).getLast?).getD it := by
        unfold lastItemForUrl
        rw [List.filter_cons_of_pos (by simp), getLastD_cons, List.filter_filter]
        congr 2
        apply List.filter_congr
        intro a ha
        by_cases h1 : a.url = it.url
        · simp [h1, hmem]
        · simp [h1]
      have htail :
          (rest.filter (fun x => x.url ∉ acc.map Prod.fst)).filter
              (fun x => x.url ≠ it.url)
            = rest.filter (fun x => x.url ∉ acc.map Prod.fst ++ [it.url]) := by
        rw [List.filter_filter]
        apply List.filter_congr
        intro a ha
        by_cases h1 : a.url = it.url
        · simp [h1]
        · by_cases h2 : a.url ∈ acc.map Prod.fst
          · simp [h1, h2]
          · simp [h1, h2]
      rw [hhead, htail, List.map_cons,
        getLastD_filter_url it.url it rest rfl]
      -- align the retained entries and flatten the appended singleton
      have hretained : acc.map (fun p =>
            (p.1, (((it :: rest).filter (fun x => x.url = p.1)).getLast?).getD p.2))
          = acc.map (fun p =>
            (p.1, ((rest.filter (fun x => x.url = p.1)).getLast?).getD p.2)) := by
        apply List.map_congr_left
        intro p hp
        have hne : it.url ≠ p.1 :=
          fun he => hmem (he ▸ List.mem_map_of_mem Prod.fst hp)
        rw [List.filter_cons_of_neg
          (by simp only [decide_eq_true_eq]; exact hne)]
      rw [hretained]
      simp

/-- The Map-based deduplication of the source equals the spec-side
collapse: first-occurrence key order, last-occurrence values. -/
theorem dedupByUrl_eq (l : List SearchResultItem) :
    dedupByUrl l = dedupFirstKeyLastValue l := by
  unfold dedupByUrl
  rw [foldl_mapSet_spec l [] (by simp)]
  simp only [List.map_nil, List.nil_append]
  have hfilter : l.filter (fun it => it.url ∉ ([] : List Str)) = l := by
    apply List.filter_eq_self.mpr
    intro a ha
    simp
  rw [hfilter, List.map_map]
  have : (Prod.snd ∘ fun it : SearchResultItem => (it.url, it)) = id :=
    funext fun it => rfl
  rw [this, List.map_id]

/-- Every entry of the collapsed list is an entry of the original list. -/
theorem mem_of_mem_dedupFKLV :
    ∀ (l : List SearchResultItem), ∀ x ∈ dedupFirstKeyLastValue l, x ∈ l := by
  intro l
  induction l using dedupFirstKeyLastValue.induct with
  | case1 =>
    rw [dedupFirstKeyLastValue]
    intro x hx
    exact absurd hx (List.not_mem_nil x)
  | case2 it rest ih =>
    rw [dedupFirstKeyLastValue]
    intro x hx
    rcases List.mem_cons.mp hx with rfl | hx2
    · -- the head is the last item for the head's url, hence in the list
      unfold lastItemForUrl
      rw [List.filter_cons_of_pos (by simp)]
      cases hl : (it :: rest.filter (fun x => x.url = it.url)).getLast? with
      | none =>
        rw [List.getLast?_eq_none_iff] at hl
        exact absurd hl (List.cons_ne_nil _ _)
      | some y =>
        rw [Option.getD_some]
        have hy := List.mem_of_mem_getLast? (Option.mem_def.mpr hl)
        rcases List.mem_cons.mp hy with rfl | hy2
        · exact List.mem_cons_self _ _
        · exact List.mem_cons_of_mem _ (List.mem_of_mem_filter hy2)
    · exact List.mem_cons_of_mem _ (List.mem_of_mem_filter (ih x hx2))

/-- The urls of the collapsed list are pairwise distinct. -/
theorem nodup_dedupFKLV_urls :
    ∀ (l : List SearchResultItem),
      ((dedupFirstKeyLastValue l).map (fun r => r.url)).Nodup := by
  intro l
  induction l using dedupFirstKeyLastValue.induct with
  | case1 =>
    rw [dedupFirstKeyLastValue]
    simp
  | case2 it rest ih =>
    rw [dedupFirstKeyLastValue]
    rw [List.map_cons, List.nodup_cons]
    constructor
    · -- the head url never reappears: the tail only holds items whose url differs
      intro hin
      rcases List.mem_map.mp hin with ⟨x, hx, hxu⟩
      have hxl := mem_of_mem_dedupFKLV _ x hx
      have hxne := (List.mem_filter.mp hxl).2
      have hhead : (lastItemForUrl it.url (it :: rest)).url = it.url := by
        unfold lastItemForUrl
        rw [List.filter_cons_of_pos (by simp), getLastD_cons]
        exact getLastD_filter_url it.url it rest rfl
      rw [hhead] at hxu
      exact (of_decide_eq_true hxne) hxu
    · exact ih

/-- Claim C1 (corrected), counterexample: on the claim's own example, with
grounding chunks (u1, T1), (u1, T2), (u2, T3), the entry kept for u1
carries title T2 (the last occurrence's title), not T1 (the first
occurrence's title) as the claim states. -/
theorem dedup_first_title_counterexample :
    (researchTopicForPrompt [] [] [] []
        (some [⟨some ⟨"u1".data, "T1".data⟩⟩, ⟨some ⟨"u1".data, "T2".data⟩⟩,
               ⟨some ⟨"u2".data, "T3".data⟩⟩])).searchResults
      = [⟨"T2".data, "u1".data⟩, ⟨"T3".data, "u2".data⟩]
    ∧ (researchTopicForPrompt [] [] [] []
        (some [⟨some ⟨"u1".data, "T1".data⟩⟩, ⟨some ⟨"u1".data, "T2".data⟩⟩,
               ⟨some ⟨"u2".data, "T3".data⟩⟩])).searchResults
      ≠ [⟨"T1".data, "u1".data⟩, ⟨"T3".data, "u2".data⟩] := by
  exact ⟨by decide, by decide⟩

/-- Claim C1 (amended): for every sequence of grounding chunks, the
searchResults contain exactly one citation per unique web URI among chunks
having both a non-empty uri and title, in order of each URL's first
occurrence — a repeated URL never creates a second entry — and the title
retained for each URL is the one from that URL's LAST occurrence (for
chunks u1/T1, u1/T2, u2/T3 the entry for u1 carries title T2). -/
theorem dedup_search_results_spec :
    ∀ (topic level style text : Str) (chunks : List GroundingChunk),
      (researchTopicForPrompt topic level style text (some chunks)).searchResults
          = dedupFirstKeyLastValue (chunkItems chunks)
      ∧ (((researchTopicForPrompt topic level style text (some chunks)).searchResults).map
            (fun r => r.url)).Nodup := by
  intro topic level style text chunks
  have h1 : (researchTopicForPrompt topic level style text (some chunks)).searchResults
      = dedupFirstKeyLastValue (chunkItems chunks) := dedupByUrl_eq (chunkItems chunks)
  exact ⟨h1, h1 ▸ nodup_dedupFKLV_urls (chunkItems chunks)⟩

/-! ### Image response scanning -/

/-- One unfolding step of the response scan, phrased through the
truthiness test. -/
theorem firstInlineImage_cons (p : ContentPart) (rest : List ContentPart) :
    firstInlineImage (p :: rest)
      = if hasInlineImage p then p.inlineData.map (fun d => d.data)
        else firstInlineImage rest := by
  cases hd : p.inlineData with
  | none => simp [firstInlineImage, hasInlineImage, hd]
  | some d =>
    by_cases hdata : d.data.isEmpty
    · simp [firstInlineImage, hasInlineImage, hd, hdata]
    · simp [firstInlineImage, hasInlineImage, hd, hdata]

/-- When no part passes the truthiness test, the scan finds nothing. -/
theorem firstInlineImage_eq_none (parts : List ContentPart)
    (h : ∀ p ∈ parts, hasInlineImage p = false) : firstInlineImage parts = none := by
  induction parts with
  | nil => rfl
  | cons p rest ih =>
    rw [firstInlineImage_cons, if_neg (by rw [h p (List.mem_cons_self p rest)]; simp)]
    exact ih (fun q hq => h q (List.mem_cons_of_mem p hq))

/-- The scan returns the data of the first passing part. -/
theorem firstInlineImage_found (pre : List ContentPart) (p : ContentPart)
    (post : List ContentPart) (hpre : ∀ q ∈ pre, hasInlineImage q = false)
    (hp : hasInlineImage p = true) :
    ∃ d, p.inlineData = some d ∧ firstInlineImage (pre ++ p :: post) = some d.data := by
  induction pre with
  | nil =>
    rw [List.nil_append, firstInlineImage_cons, if_pos hp]
    cases hd : p.inlineData with
    | none => rw [hasInlineImage, hd] at hp; exact absurd hp (by simp)
    | some d => exact ⟨d, rfl, rfl⟩
  | cons q pre2 ih =>
    rw [List.cons_append, firstInlineImage_cons,
      if_neg (by rw [hpre q (List.mem_cons_self q pre2)]; simp)]
    exact ih (fun r hr => hpre r (List.mem_cons_of_mem q hr))

/-- Claim C3 (confirmed): each of the three image operations raises its
missing-output error exactly when no response part carries non-empty
inline image data, and otherwise returns the first such part's data
re-encoded behind the PNG data-URI header. -/
theorem image_missing_output_spec :
    ∀ parts : List ContentPart,
      ((∀ p ∈ parts, hasInlineImage p = false) →
        generateImageResult parts = .error "Failed to generate image".data
        ∧ fixImageResult parts = .error "Failed to fix image".data
        ∧ editImageResult parts = .error "Failed to edit image".data)
      ∧ (∀ (pre : List ContentPart) (p : ContentPart) (post : List ContentPart),
          parts = pre ++ p :: post →
          (∀ q ∈ pre, hasInlineImage q = false) →
          hasInlineImage p = true →
          ∃ d, p.inlineData = some d
            ∧ generateImageResult parts = .ok (pngDataUri d.data)
            ∧ fixImageResult parts = .ok (pngDataUri d.data)
            ∧ editImageResult parts = .ok (pngDataUri d.data)) := by
  intro parts
  constructor
  · intro h
    have hn := firstInlineImage_eq_none parts h
    unfold generateImageResult fixImageResult editImageResult imageResult
    rw [hn]
    exact ⟨rfl, rfl, rfl⟩
  · intro pre p post hdec hpre hp
    obtain ⟨d, hd, hfind⟩ := firstInlineImage_found pre p post hpre hp
    refine ⟨d, hd, ?_, ?_, ?_⟩
    · unfold generateImageResult imageResult
      rw [hdec, hfind]
    · unfold fixImageResult imageResult
      rw [hdec, hfind]
    · unfold editImageResult imageResult
      rw [hdec, hfind]

/-- Witness for C3: a response with one inline part yields its PNG data
URI; an empty response yields the fix operation's error. -/
theorem image_missing_output_witness :
    generateImageResult [⟨some "t".data, none⟩, ⟨none, some ⟨"m".data, "QUJD".data⟩⟩]
        = .ok (pngDataUri "QUJD".data)
    ∧ fixImageResult [] = .error "Failed to fix image".data := by
  constructor
  · obtain ⟨d, hd, hg, -, -⟩ :=
      (image_missing_output_spec
          [⟨some "t".data, none⟩, ⟨none, some ⟨"m".data, "QUJD".data⟩⟩]).2
        [⟨some "t".data, none⟩] ⟨none, some ⟨"m".data, "QUJD".data⟩⟩ [] rfl
        (by decide) (by decide)
    have hd2 : (⟨"m".data, "QUJD".data⟩ : InlineData) = d := Option.some.inj hd
    rw [← hd2] at hg
    exact hg
  · exact ((image_missing_output_spec []).1 (by simp)).2.1

/-! ### Prompt post-processing -/

/-- Claim C5 (confirmed): the 16:9 mandate sentence is prepended exactly
when the extracted-or-fallback prompt contains neither the token 16:9 nor
the token widescreen under case-insensitive comparison; when either token
is already present, nothing is prepended. -/
theorem aspect_mandate_spec :
    ∀ (topic level style text : Str),
      (containsCI (basePrompt topic level style text) token169 = false →
        containsCI (basePrompt topic level style text) tokenWidescreen = false →
        (researchTopicForPrompt topic level style text none).imagePrompt
          = (aspectMandate ++ basePrompt topic level style text) ++ qualitySuffix)
      ∧ (containsCI (basePrompt topic level style text) token169 = true
          ∨ containsCI (basePrompt topic level style text) tokenWidescreen = true →
        (researchTopicForPrompt topic level style text none).imagePrompt
          = basePrompt topic level style text ++ qualitySuffix) := by
  intro topic level style text
  have hshow : (researchTopicForPrompt topic level style text none).imagePrompt
      = ensureAspect (basePrompt topic level style text) ++ qualitySuffix := rfl
  constructor
  · intro h1 h2
    rw [hshow]
    unfold ensureAspect
    rw [h1, h2]
    rfl
  · intro h
    rw [hshow]
    unfold ensureAspect
    rcases h with h | h <;> rw [h] <;> simp

/-- Witness for C5: one prompt without either token gets the mandate
prepended; one already mentioning 16:9 is left unprefixed. -/
theorem aspect_mandate_witness :
    (containsCI (basePrompt "T".data [] [] "IMAGE_PROMPT: plain diagram.".data) token169 = false
      ∧ (researchTopicForPrompt "T".data [] [] "IMAGE_PROMPT: plain diagram.".data none).imagePrompt
          = (aspectMandate ++ basePrompt "T".data [] [] "IMAGE_PROMPT: plain diagram.".data)
              ++ qualitySuffix)
    ∧ (containsCI (basePrompt "T".data [] [] "IMAGE_PROMPT: a 16:9 chart".data) token169 = true
      ∧ (researchTopicForPrompt "T".data [] [] "IMAGE_PROMPT: a 16:9 chart".data none).imagePrompt
          = basePrompt "T".data [] [] "IMAGE_PROMPT: a 16:9 chart".data ++ qualitySuffix) := by
  refine ⟨⟨by decide, (aspect_mandate_spec "T".data [] [] "IMAGE_PROMPT: plain diagram.".data).1
      (by decide) (by decide)⟩,
    ⟨by decide, (aspect_mandate_spec "T".data [] [] "IMAGE_PROMPT: a 16:9 chart".data).2
      (Or.inl (by decide))⟩⟩

/-- Claim C6 (confirmed): the facts are the FACTS section's lines, each
stripped of a leading dash marker and surrounding whitespace, with empty
lines dropped and at most the first 5 kept in order; hence always at most
5 facts, and a response with 8 bulleted facts yields exactly the first
5. -/
theorem facts_limit_spec :
    (∀ (topic level style text : Str) (chunks : Option (List GroundingChunk)),
      (researchTopicForPrompt topic level style text chunks).facts
        = (((((factsSectionRaw text).getD []).splitOn '\n').map cleanFactLine).filter
            (fun f => !f.isEmpty)).take 5
      ∧ (researchTopicForPrompt topic level style text chunks).facts.length ≤ 5)
    ∧ (researchTopicForPrompt "t".data [] []
          "FACTS:\n- F1\n- F2\n- F3\n- F4\n- F5\n- F6\n- F7\n- F8\nIMAGE_PROMPT:\nX 16:9".data
          none).facts
        = ["F1".data, "F2".data, "F3".data, "F4".data, "F5".data] := by
  constructor
  · intro topic level style text chunks
    exact ⟨rfl, List.length_take_le 5 _⟩
  · decide

/-- A pattern occurs in any string that splits around it. -/
theorem containsSub_append_mid (a pat b : Str) :
    containsSub (a ++ (pat ++ b)) pat = true := by
  unfold containsSub
  rw [List.any_eq_true]
  refine ⟨a.length, ?_, ?_⟩
  · rw [List.mem_range, List.length_append, List.length_append]
    omega
  · unfold matchAt
    rw [List.drop_left]
    exact List.isPrefixOf_iff_prefix.mpr (List.prefix_append pat b)

/-- Occurrence from an explicit decomposition of the subject string. -/
theorem containsSub_of_middle (s a pat b : Str) (h : s = a ++ (pat ++ b)) :
    containsSub s pat = true := by
  subst h
  exact containsSub_append_mid a pat b

/-- The aspect-ratio guard preserves any explicit occurrence, whichever
branch it takes. -/
theorem containsSub_ensureAspect (p q a pat b : Str) (h : p = a ++ (pat ++ b)) :
    containsSub (ensureAspect p ++ q) pat = true := by
  unfold ensureAspect
  split
  · exact containsSub_of_middle _ (aspectMandate ++ a) pat (b ++ q)
      (by subst h; simp)
  · exact containsSub_of_middle _ a pat (b ++ q) (by subst h; simp)

/-- Claim C7 (confirmed): response parsing is total and degrades to
defaults — with no FACTS section the facts are empty, with no
IMAGE_PROMPT section the returned prompt is the synthesized fallback,
which contains the topic string, and on the empty response text both
defaults apply at once. -/
theorem parsing_total_spec :
    ∀ (topic level style text : Str),
      (findSubCI text factsHeader = none →
        (researchTopicForPrompt topic level style text none).facts = [])
      ∧ (findSubCI text promptHeader = none →
        containsSub (researchTopicForPrompt topic level style text none).imagePrompt topic
          = true)
      ∧ (text = [] →
        (researchTopicForPrompt topic level style text none).facts = []
        ∧ containsSub (researchTopicForPrompt topic level style text none).imagePrompt topic
            = true) := by
  intro topic level style text
  have hfacts : findSubCI text factsHeader = none →
      (researchTopicForPrompt topic level style text none).facts = [] := by
    intro h
    have hsec : factsSectionRaw text = none := by
      unfold factsSectionRaw
      rw [h]
    show parseFacts ((factsSectionRaw text).getD []) = []
    rw [hsec]
    rfl
  have hprompt : findSubCI text promptHeader = none →
      containsSub (researchTopicForPrompt topic level style text none).imagePrompt topic
        = true := by
    intro h
    have hbase : basePrompt topic level style text
        = fallbackImagePrompt topic level style := by
      unfold basePrompt extractedImagePrompt
      rw [h]
      rfl
    show containsSub (ensureAspect (basePrompt topic level style text) ++ qualitySuffix)
        topic = true
    rw [hbase]
    exact containsSub_ensureAspect _ qualitySuffix
      "Create a detailed 16:9 widescreen format infographic about ".data topic
      (". ".data ++ getLevelInstruction level ++ " ".data ++ getStyleInstruction style)
      (by simp [fallbackImagePrompt, List.append_assoc])
  refine ⟨hfacts, hprompt, ?_⟩
  intro h
  subst h
  exact ⟨hfacts (by decide), hprompt (by decide)⟩

/-- Witness for C7: a headerless response text yields empty facts and a
fallback prompt containing the topic. -/
theorem parsing_total_witness :
    (findSubCI "hello".data factsHeader = none
      ∧ (researchTopicForPrompt "Volcano".data [] [] "hello".data none).facts = [])
    ∧ ((researchTopicForPrompt "Volcano".data [] [] [] none).facts = []
      ∧ containsSub (researchTopicForPrompt "Volcano".data [] [] [] none).imagePrompt
          "Volcano".data = true) := by
  exact ⟨⟨by decide, (parsing_total_spec "Volcano".data [] [] "hello".data).1 (by decide)⟩,
    (parsing_total_spec "Volcano".data [] [] []).2.2 rfl⟩

/-! ### Data-URI header stripping -/

/-- The PNG header never matches a string that starts with the jpeg
header. -/
theorem png_not_match_jpeg (rest : Str) :
    pngDataHeader.isPrefixOf (jpegDataHeader ++ rest) = false := by
  rw [Bool.eq_false_iff]
  intro h
  have hp := List.isPrefixOf_iff_prefix.mp h
  rw [List.prefix_iff_eq_take, List.take_append_of_le_length (by decide)] at hp
  exact absurd hp (by decide)

/-- The PNG header never matches a string that starts with the jpg
header. -/
theorem png_not_match_jpg (rest : Str) :
    pngDataHeader.isPrefixOf (jpgDataHeader ++ rest) = false := by
  rw [Bool.eq_false_iff]
  intro h
  have hp := List.isPrefixOf_iff_prefix.mp h
  rw [List.prefix_iff_eq_take, List.take_append_of_le_length (by decide)] at hp
  exact absurd hp (by decide)

/-- The jpeg header never matches a string that starts with the jpg
header. -/
theorem jpeg_not_match_jpg (rest : Str) :
    jpegDataHeader.isPrefixOf (jpgDataHeader ++ rest) = false := by
  rw [Bool.eq_false_iff]
  intro h
  obtain ⟨t, ht⟩ := List.isPrefixOf_iff_prefix.mp h
  have h14 := congrArg (List.take 14) ht
  rw [List.take_append_of_le_length (by decide),
    List.take_append_of_le_length (by decide)] at h14
  exact absurd h14 (by decide)

/-- Claim C8 (confirmed): both fixInfographicImage and
editInfographicImage remove exactly a leading PNG, jpeg or jpg data-URI
header from the incoming image before attaching it, and attach an input
without such a header unchanged. -/
theorem strip_header_spec :
    ∀ (rest img corr instr : Str),
      stripDataHeader (pngDataHeader ++ rest) = rest
      ∧ stripDataHeader (jpegDataHeader ++ rest) = rest
      ∧ stripDataHeader (jpgDataHeader ++ rest) = rest
      ∧ (¬ pngDataHeader <+: img → ¬ jpegDataHeader <+: img → ¬ jpgDataHeader <+: img →
          stripDataHeader img = img)
      ∧ requestInlineData (fixImageRequest img corr) = [stripDataHeader img]
      ∧ requestInlineData (editImageRequest img instr) = [stripDataHeader img] := by
  intro rest img corr instr
  refine ⟨?_, ?_, ?_, ?_, rfl, rfl⟩
  · unfold stripDataHeader
    rw [if_pos (List.isPrefixOf_iff_prefix.mpr (List.prefix_append _ _))]
    exact List.drop_left _ _
  · unfold stripDataHeader
    rw [if_neg (by rw [png_not_match_jpeg rest]; simp),
      if_pos (List.isPrefixOf_iff_prefix.mpr (List.prefix_append _ _))]
    exact List.drop_left _ _
  · unfold stripDataHeader
    rw [if_neg (by rw [png_not_match_jpg rest]; simp),
      if_neg (by rw [jpeg_not_match_jpg rest]; simp),
      if_pos (List.isPrefixOf_iff_prefix.mpr (List.prefix_append _ _))]
    exact List.drop_left _ _
  · intro h1 h2 h3
    unfold stripDataHeader
    rw [if_neg (fun hb => h1 (List.isPrefixOf_iff_prefix.mp hb)),
      if_neg (fun hb => h2 (List.isPrefixOf_iff_prefix.mp hb)),
      if_neg (fun hb => h3 (List.isPrefixOf_iff_prefix.mp hb))]

/-- Witness for C8: each header variant is stripped on a concrete image,
and a headerless input is attached unchanged. -/
theorem strip_header_witness :
    stripDataHeader (pngDataHeader ++ "QUJD".data) = "QUJD".data
    ∧ stripDataHeader (jpegDataHeader ++ "QUJD".data) = "QUJD".data
    ∧ stripDataHeader (jpgDataHeader ++ "QUJD".data) = "QUJD".data
    ∧ stripDataHeader "QUJD".data = "QUJD".data
    ∧ requestInlineData (fixImageRequest "QUJD".data "c".data)
        = [stripDataHeader "QUJD".data] := by
  obtain ⟨hp, hje, hjg, hnone, hfix, -⟩ :=
    strip_header_spec "QUJD".data "QUJD".data "c".data "e".data
  exact ⟨hp, hje, hjg,
    hnone (by decide) (by decide) (by decide), hfix⟩

/-! ### Counting occurrences of the quality suffix -/

/-- When the pattern has no self-overlap and does not occur in the left
part, appending it creates a match exactly at the junction index. -/
theorem matchAt_append_self (pat a : Str) (hnb : noOverlap pat = true)
    (h0 : countOccur pat a = 0) :
    ∀ i, matchAt pat (a ++ pat) i = decide (i = a.length) := by
  intro i
  rcases lt_trichotomy i a.length with hlt | heq | hgt
  · rw [decide_eq_false (by omega : ¬ i = a.length), Bool.eq_false_iff]
    intro hm
    unfold matchAt at hm
    rw [List.drop_append_of_le_length (le_of_lt hlt)] at hm
    have hp := List.isPrefixOf_iff_prefix.mp hm
    by_cases hk : pat.length ≤ (a.drop i).length
    · -- the occurrence would lie wholly inside a, which the count excludes
      have hin : pat <+: a.drop i := by
        rw [List.prefix_iff_eq_take] at hp ⊢
        rw [List.take_append_of_le_length hk] at hp
        exact hp
      have h0i := (List.countP_eq_zero.mp h0) i
        (by rw [List.mem_range]; omega)
      exact h0i (by unfold matchAt; exact List.isPrefixOf_iff_prefix.mpr hin)
    · -- the occurrence would straddle the junction, contradicting noOverlap
      push_neg at hk
      obtain ⟨t, ht⟩ := hp
      have hdk := congrArg (List.drop (a.drop i).length) ht
      rw [List.drop_append_of_le_length (le_of_lt hk), List.drop_left] at hdk
      have hk0 : 0 < (a.drop i).length := by
        rw [List.length_drop]
        omega
      have hcontra := (List.all_eq_true.mp hnb) (a.drop i).length
        (by rw [List.mem_range]; omega)
      rw [decide_eq_false (by omega : ¬ (a.drop i).length = 0), Bool.false_or,
        List.isPrefixOf_iff_prefix.mpr ⟨t, hdk⟩] at hcontra
      exact absurd hcontra (by decide)
  · subst heq
    rw [decide_eq_true rfl]
    unfold matchAt
    rw [List.drop_left]
    exact List.isPrefixOf_iff_prefix.mpr (List.prefix_refl pat)
  · rw [decide_eq_false (by omega : ¬ i = a.length), Bool.eq_false_iff]
    intro hm
    unfold matchAt at hm
    have hlen := (List.isPrefixOf_iff_prefix.mp hm).length_le
    rw [List.length_drop, List.length_append] at hlen
    -- beyond the junction there is not enough room left for the pattern,
    -- unless the pattern is empty, which the zero count on a rules out
    have hpat : pat.length = 0 := by omega
    have h00 := (List.countP_eq_zero.mp h0) 0 (by rw [List.mem_range]; omega)
    apply h00
    unfold matchAt
    rw [List.length_eq_zero.mp hpat]
    exact List.isPrefixOf_iff_prefix.mpr List.nil_prefix

/-- In an initial segment of the naturals, exactly one index equals the
given bound. -/
theorem countP_decide_eq_range (m N : Nat) (h : m < N) :
    (List.range N).countP (fun i => decide (i = m)) = 1 := by
  induction N with
  | zero => omega
  | succ n ih =>
    rw [List.range_succ, List.countP_append]
    by_cases hm : m = n
    · subst hm
      have hz : (List.range m).countP (fun i => decide (i = m)) = 0 :=
        List.countP_eq_zero.mpr (fun i hi => by
          rw [List.mem_range] at hi
          simp only [decide_eq_true_eq]
          omega)
      rw [hz]
      simp
    · have hm2 : m < n := by omega
      rw [ih hm2]
      simp [List.countP_cons, Ne.symm hm]

/-- Appending a non-overlapping pattern to a string free of it yields
exactly one occurrence. -/
theorem countOccur_append_self (pat a : Str) (hnb : noOverlap pat = true)
    (h0 : countOccur pat a = 0) :
    countOccur pat (a ++ pat) = 1 := by
  unfold countOccur
  have hfun : ∀ i ∈ List.range ((a ++ pat).length + 1),
      matchAt pat (a ++ pat) i = decide (i = a.length) := fun i _ =>
    matchAt_append_self pat a hnb h0 i
  rw [List.countP_eq_length_filter, List.filter_congr hfun,
    ← List.countP_eq_length_filter]
  exact countP_decide_eq_range a.length _ (by rw [List.length_append]; omega)

set_option maxRecDepth 100000 in
/-- Claim C4 (corrected), counterexample: on a response whose extracted
image prompt already ends with the quality-enhancement sentence, the
returned prompt contains the sentence twice, so it does not occur exactly
once for every response text. -/
theorem quality_suffix_once_counterexample :
    countOccur qualitySuffix
        (researchTopicForPrompt [] [] []
          ("IMAGE_PROMPT:16:9".data ++ qualitySuffix) none).imagePrompt ≠ 1 := by
  decide

/-- Claim C4 (amended): every returned image prompt ends with the fixed
quality-enhancement sentence; the sentence occurs exactly once whenever
the extracted-or-fallback prompt (after aspect-ratio prepending) does not
already contain it — not unconditionally, as an extracted prompt may
itself contain the sentence. -/
theorem quality_suffix_spec :
    ∀ (topic level style text : Str),
      qualitySuffix <:+ (researchTopicForPrompt topic level style text none).imagePrompt
      ∧ (countOccur qualitySuffix (ensureAspect (basePrompt topic level style text)) = 0 →
          countOccur qualitySuffix
            (researchTopicForPrompt topic level style text none).imagePrompt = 1) := by
  intro topic level style text
  constructor
  · exact List.suffix_append _ _
  · intro h0
    exact countOccur_append_self qualitySuffix
      (ensureAspect (basePrompt topic level style text)) (by decide) h0

/-- Witness for C4: on a response whose prompt is free of the sentence,
the returned prompt carries it exactly once. -/
theorem quality_suffix_witness :
    countOccur qualitySuffix
        (ensureAspect (basePrompt "T".data [] [] "IMAGE_PROMPT: a 16:9 chart".data)) = 0
    ∧ countOccur qualitySuffix
        (researchTopicForPrompt "T".data [] [] "IMAGE_PROMPT: a 16:9 chart".data
          none).imagePrompt = 1 := by
  exact ⟨by decide,
    (quality_suffix_spec "T".data [] [] "IMAGE_PROMPT: a 16:9 chart".data).2 (by decide)⟩

end GeminiService
